import Mathlib

/-!
Verification of the `SchedulerService` gRPC adapter
(`scheduler/base/src/service.rs`) against its natural-language
specification.  The adapter exposes two operations over a backend
`Scheduler`: a unary `get_committees` lookup and a server-streaming
`watch_committees` subscription.  We embed the adapter's logic as pure
functions parametrised by the backend's observable behaviour, and model
the pieces the adapter consumes but does not define (the `B256` byte
type, the backend lookup, the `Into` conversion, and the §4.1 Selection
Function) from the specification.
-/

namespace SchedulerBase

/-- An `ekiden_common::error::Error`, observed by the adapter only through
its `description()`. -/
structure Error where
  description : String
deriving DecidableEq, Repr

/-- Modelled from the spec: `B256` (from `ekiden_common::bytes`, not part of
the visible slice) is an opaque fixed-width 32-byte identifier and
`from_slice` decodes an arbitrary byte slice into one, truncating or
zero-padding to the fixed width; decoding is total. -/
structure B256 where
  bytes : List Nat
deriving DecidableEq, Repr

/-- Modelled from the spec: total decoding of a byte slice into a `B256`. -/
def B256.from_slice (s : List Nat) : B256 :=
  ⟨s.take 32 ++ List.replicate (32 - s.length) 0⟩

/-- Modelled from the spec: a backend `Committee` (§3) belongs to one task,
carries an epoch and an assignment list of (node identifier, role) pairs.
The adapter treats it as an opaque value. -/
structure Committee where
  contract : B256
  epoch : Nat
  members : List (Nat × Nat)
deriving DecidableEq, Repr

/-- The generated API committee message, mirror of the backend value. -/
structure ApiCommittee where
  contract : B256
  epoch : Nat
  members : List (Nat × Nat)
deriving DecidableEq, Repr

/-- Modelled from the spec: the `Into<api::Committee>` conversion applied to
each backend committee (`member.to_owned().into()`); a one-for-one field
copy. -/
def Committee.into (c : Committee) : ApiCommittee :=
  ⟨c.contract, c.epoch, c.members⟩

/-- The wire request of `get_committees`: carries the raw `contract_id`
bytes read by `req.get_contract_id()`. -/
structure CommitteeRequest where
  contract_id : List Nat
deriving DecidableEq, Repr

/-- The wire response of `get_committees`: its `committee` repeated field. -/
structure CommitteeResponse where
  committee : List ApiCommittee
deriving DecidableEq, Repr

/-- The wire request of `watch_committees` (ignored by the adapter). -/
structure WatchRequest where
  payload : List Nat
deriving DecidableEq, Repr

/-- One element of the `watch_committees` response stream. -/
structure WatchResponse where
  committee : ApiCommittee
deriving DecidableEq, Repr

/-- The grpcio status codes the adapter can mention, plus others for
contrast. -/
inductive RpcStatusCode where
  | GrpcOk
  | InvalidArgument
  | NotFound
  | Internal
  | Unavailable
deriving DecidableEq, Repr

/-- The outcome a unary RPC delivers to its sink: `sink.success(resp)` or
`sink.fail(RpcStatus::new(code, Some(msg)))`. -/
inductive RpcOutcome where
  | success (resp : CommitteeResponse)
  | fail (code : RpcStatusCode) (message : String)
deriving DecidableEq, Repr

/-- The backend's observable behaviour for one `get_committees` call: the
resolution of the `BoxFuture<Vec<Committee>>` returned by
`self.inner.get_committees(contract_id)` for each decoded identifier. -/
def GetCommitteesBackend : Type :=
  B256 → Except Error (List Committee)

/-- The request-decoding closure of `get_committees` (service.rs lines
41-46): decodes the contract identifier with `B256::from_slice` and
returns `Ok` of the backend future.  The closure's only exit is the final
`Ok(...)`. -/
def get_committees_closure (backend : GetCommitteesBackend)
    (req : CommitteeRequest) : Except Error (Except Error (List Committee)) :=
  Except.ok (backend (B256.from_slice req.contract_id))

/-- The member-conversion loop of `get_committees` (lines 50-54): pushes
`member.to_owned().into()` for each committee in iteration order. -/
def convert_members : List Committee → List ApiCommittee
  | [] => []
  | c :: rest => c.into :: convert_members rest

/-- The `get_committees` handler (lines 35-69): runs the decoding closure;
on a decoding error fails the sink with `InvalidArgument`; otherwise
awaits the backend future and either responds with the converted
committees or fails the sink with `Internal` carrying the error's
description. -/
def get_committees (backend : GetCommitteesBackend)
    (req : CommitteeRequest) : RpcOutcome :=
  match get_committees_closure backend req with
  | Except.error e => RpcOutcome.fail RpcStatusCode.InvalidArgument e.description
  | Except.ok fut =>
    match fut with
    | Except.ok committees =>
        RpcOutcome.success ⟨convert_members committees⟩
    | Except.error e => RpcOutcome.fail RpcStatusCode.Internal e.description

/-- Whether an outcome is an `InvalidArgument` failure. -/
def RpcOutcome.isInvalidArgumentFail : RpcOutcome → Bool
  | RpcOutcome.fail RpcStatusCode.InvalidArgument _ => true
  | _ => false

theorem convert_members_eq_map (l : List Committee) :
    convert_members l = l.map Committee.into := by
  induction l with
  | nil => rfl
  | cons c rest ih => simp [convert_members, ih]

/-- The grpcio `WriteFlags` attached to each streamed element
(`WriteFlags::default()`). -/
inductive WriteFlags where
  | dflt
deriving DecidableEq, Repr

/-- The per-event mapping closure of `watch_committees` (lines 79-83):
builds one `WatchResponse` whose committee is the converted event, paired
with default write flags. -/
def watch_map_event (c : Committee) : WatchResponse × WriteFlags :=
  (⟨c.into⟩, WriteFlags.dflt)

/-- Whether an item of the backend watch stream is an error item. -/
def exceptIsErr : Except Error Committee → Bool
  | Except.error _ => true
  | Except.ok _ => false

/-- The `forward` combinator semantics over a finite observed trace of the
backend watch stream (`f.forward(sink)`, line 84).  `trace` lists the
items the backend stream yielded, in order; `sourceEnded` records whether
the backend stream then completed.  The result is the list of responses
written to the sink and whether the spawned future finished (closing the
stream): it finishes when the source completes or as soon as an item is
an error, abandoning the rest of the trace. -/
def watch_forward : List (Except Error Committee) → Bool →
    List WatchResponse × Bool
  | [], sourceEnded => ([], sourceEnded)
  | Except.ok c :: rest, sourceEnded =>
    let r := watch_forward rest sourceEnded
    ((watch_map_event c).1 :: r.1, r.2)
  | Except.error _ :: _, _ => ([], true)

/-- The `watch_committees` handler (lines 71-85): the request parameter is
bound as `_req` and never read; the backend stream is mapped per event and
forwarded to the sink. -/
def watch_committees (_req : WatchRequest)
    (trace : List (Except Error Committee)) (sourceEnded : Bool) :
    List WatchResponse × Bool :=
  watch_forward trace sourceEnded

/-- The `.then(|_f| future::ok(()))` wrapper on the spawned watch future
(line 84): whatever the forwarding resolved to, the spawned future
resolves to `Ok(())`. -/
def watch_spawn_result (_r : Except Error Unit) : Except Error Unit :=
  Except.ok ()

/-- The resolution of `f.forward(sink)` alone: the first error item of the
trace, if any, otherwise success. -/
def forward_result : List (Except Error Committee) → Except Error Unit
  | [] => Except.ok ()
  | Except.ok _ :: rest => forward_result rest
  | Except.error e :: _ => Except.error e

/-- The successful events at the head of a watch trace, up to the first
error item: exactly the events `forward` delivers. -/
def okEvents : List (Except Error Committee) → List Committee
  | [] => []
  | Except.ok c :: rest => c :: okEvents rest
  | Except.error _ :: _ => []

/-- Modelled from the spec: the backend `get_committees` built on the
Committee Store and façade (§4.3, §4.5): `get(task)` returns the current
committee or none for a task no committee has ever been computed for, and
the lookup returns the empty list — not an error — for such an unknown
task. -/
def spec_backend (store : B256 → Option Committee) : GetCommitteesBackend :=
  fun id =>
    match store id with
    | some c => Except.ok [c]
    | none => Except.ok []

/-- Modelled from the spec: an eligible-pool node (§3): identifier,
declared role capabilities, stake weight and liveness flag. -/
structure Node where
  id : Nat
  capabilities : List Nat
  weight : Nat
  live : Bool
deriving DecidableEq, Repr

/-- Modelled from the spec: one (role, required count) pair of a task's
committee shape (§3). -/
structure RoleReq where
  role : Nat
  count : Nat
deriving DecidableEq, Repr

/-- Modelled from the spec: the §4.1 inner committee value: the assignment
list of (node identifier, role) pairs and the explicit list of roles left
under-quorum. -/
structure SelCommittee where
  assignments : List (Nat × Nat)
  underQuorum : List Nat
deriving DecidableEq, Repr

/-- Modelled from the spec: the deterministic per-node ranking key, a keyed
hash of (seed, node identifier) optionally biased by weight (§4.1). -/
def rankKey (seed : Nat) (n : Node) : Nat :=
  ((seed + n.id) * 2654435761 + n.weight * 97) % 4294967296

/-- Modelled from the spec: the §4.1 ranking order: ascending ranking key,
ties broken by node identifier (a total order, no nondeterminism). -/
def rankLe (seed : Nat) (a b : Node) : Bool :=
  Nat.blt (rankKey seed a) (rankKey seed b) ||
    (rankKey seed a == rankKey seed b && Nat.ble a.id b.id)

/-- Modelled from the spec: insertion into a ranked list under `rankLe`. -/
def insertRanked (seed : Nat) (n : Node) : List Node → List Node
  | [] => [n]
  | m :: rest =>
    if rankLe seed n m then n :: m :: rest else m :: insertRanked seed n rest

/-- Modelled from the spec: deterministic sort of the eligible pool by
ranking key, ties by identifier. -/
def sortRanked (seed : Nat) : List Node → List Node
  | [] => []
  | n :: rest => insertRanked seed n (sortRanked seed rest)

/-- Modelled from the spec: greedy consumption for one role (§4.1): walk
the ranked pool, taking nodes that hold the role's capability and were not
already consumed, until the required count is met or the pool is
exhausted. -/
def pickRole (role : Nat) : Nat → List Node → List Nat → List Nat
  | 0, _, _ => []
  | _ + 1, [], _ => []
  | k + 1, n :: rest, used =>
    if n.capabilities.contains role && !(used.contains n.id) then
      n.id :: pickRole role k rest (n.id :: used)
    else
      pickRole role (k + 1) rest used

/-- Modelled from the spec: walk the shape's role list in declared order,
filling each role greedily and flagging it under-quorum when its required
count could not be met (§4.1). -/
def fillShape (ranked : List Node) : List RoleReq → List Nat →
    List (Nat × Nat) × List Nat
  | [], _ => ([], [])
  | r :: restShape, used =>
    let picked := pickRole r.role r.count ranked used
    let tail := fillShape ranked restShape (used ++ picked)
    (picked.map (fun i => (i, r.role)) ++ tail.1,
     (if picked.length < r.count then [r.role] else []) ++ tail.2)

/-- Modelled from the spec: the Selection Function (§4.1): filter the
snapshot to live nodes, rank deterministically from the seed, and fill the
shape greedily; it never raises and always returns a (possibly
under-quorum or empty) committee. -/
def selectCommittee (seed : Nat) (nodes : List Node)
    (shape : List RoleReq) : SelCommittee :=
  let eligible := nodes.filter (fun n => n.live)
  let ranked := sortRanked seed eligible
  let filled := fillShape ranked shape []
  ⟨filled.1, filled.2⟩

theorem watch_forward_fst (trace : List (Except Error Committee)) (b : Bool) :
    (watch_forward trace b).1
      = (okEvents trace).map (fun c => ⟨c.into⟩) := by
  induction trace with
  | nil => rfl
  | cons item rest ih =>
    cases item with
    | ok c => simp [watch_forward, okEvents, watch_map_event, ih]
    | error e => rfl

theorem watch_forward_all_ok (events : List Committee) (b : Bool) :
    watch_forward (events.map Except.ok) b
      = (events.map (fun c => ⟨c.into⟩), b) := by
  induction events with
  | nil => rfl
  | cons c rest ih => simp [watch_forward, watch_map_event, ih]

theorem watch_forward_snd (trace : List (Except Error Committee)) (b : Bool) :
    (watch_forward trace b).2 = (b || trace.any exceptIsErr) := by
  induction trace with
  | nil => simp [watch_forward]
  | cons item rest ih =>
    cases item with
    | ok c => simp [watch_forward, exceptIsErr, ih]
    | error e => simp [watch_forward, exceptIsErr]

theorem watch_forward_length (trace : List (Except Error Committee)) (b : Bool)
    (h : trace.any exceptIsErr = false) :
    (watch_forward trace b).1.length = trace.length := by
  induction trace with
  | nil => rfl
  | cons item rest ih =>
    cases item with
    | ok c =>
      simp only [List.any_cons, exceptIsErr, Bool.false_or] at h
      simp [watch_forward, ih h]
    | error e => simp [exceptIsErr] at h

/-- Claim C1: whenever the backend lookup resolves successfully with a list
of committees, `get_committees` responds with success and the response's
committee field is exactly those committees converted one-for-one via
`Into`, in the same order, with the same length; nothing is added, dropped
or reordered (the handler is a pure function of the backend result). -/
theorem get_committees_maps_backend_success (backend : GetCommitteesBackend)
    (req : CommitteeRequest) (committees : List Committee)
    (h : backend (B256.from_slice req.contract_id) = Except.ok committees) :
    get_committees backend req
      = RpcOutcome.success ⟨committees.map Committee.into⟩ ∧
    (committees.map Committee.into).length = committees.length := by
  refine ⟨?_, by simp⟩
  simp [get_committees, get_committees_closure, h, convert_members_eq_map]

/-- Witness for C1 at a concrete backend and request. -/
theorem get_committees_maps_backend_success_witness :
    get_committees (fun _ => Except.ok [(⟨⟨[9]⟩, 4, [(1, 2)]⟩ : Committee)])
        ⟨[9]⟩
      = RpcOutcome.success
          ⟨[(⟨⟨[9]⟩, 4, [(1, 2)]⟩ : Committee)].map Committee.into⟩ ∧
    ([(⟨⟨[9]⟩, 4, [(1, 2)]⟩ : Committee)].map Committee.into).length
      = [(⟨⟨[9]⟩, 4, [(1, 2)]⟩ : Committee)].length :=
  get_committees_maps_backend_success
    (fun _ => Except.ok [⟨⟨[9]⟩, 4, [(1, 2)]⟩]) ⟨[9]⟩ _ rfl

/-- Claim C2: each element of the delivered watch stream is the conversion
of exactly one backend event, in backend emission order: on a trace of
successful events the adapter delivers precisely their one-for-one
conversions, and on any trace the delivered elements are the in-order
conversions of the successful events the backend yielded before any
stream error. -/
theorem watch_committees_one_to_one (req : WatchRequest)
    (events : List Committee) (trace : List (Except Error Committee))
    (b : Bool) :
    watch_committees req (events.map Except.ok) b
      = (events.map (fun c => ⟨c.into⟩), b) ∧
    (watch_committees req trace b).1
      = (okEvents trace).map (fun c => ⟨c.into⟩) :=
  ⟨watch_forward_all_ok events b, watch_forward_fst trace b⟩

/-- Claim C3: an `InvalidArgument` status could only arise from the
request-decoding closure, which is total; any failure `get_committees`
delivers carries the `Internal` code, so no condition produces
`InvalidArgument`. -/
theorem get_committees_fail_is_internal (backend : GetCommitteesBackend)
    (req : CommitteeRequest) (code : RpcStatusCode) (msg : String)
    (h : get_committees backend req = RpcOutcome.fail code msg) :
    code = RpcStatusCode.Internal := by
  unfold get_committees get_committees_closure at h
  cases hb : backend (B256.from_slice req.contract_id) with
  | ok l => rw [hb] at h; simp at h
  | error e => rw [hb] at h; simp at h; exact h.1.symm

/-- Witness for C3: a failing backend produces a failure, and its code is
`Internal`. -/
theorem get_committees_fail_is_internal_witness :
    (get_committees (fun _ => Except.error ⟨"boom"⟩) ⟨[]⟩
      = RpcOutcome.fail RpcStatusCode.Internal "boom") ∧
    RpcStatusCode.Internal = RpcStatusCode.Internal :=
  ⟨rfl,
   get_committees_fail_is_internal (fun _ => Except.error ⟨"boom"⟩) ⟨[]⟩
     RpcStatusCode.Internal "boom" rfl⟩

/-- Claim C4: when the backend lookup resolves with an error, the adapter
fails the RPC with the `Internal` code carrying that error's description,
and this is the only way a decoded request is reported as failed: every
failure has code `Internal` and originates from a backend error with the
delivered description. -/
theorem get_committees_backend_error_internal (backend : GetCommitteesBackend)
    (req : CommitteeRequest) :
    (∀ e, backend (B256.from_slice req.contract_id) = Except.error e →
      get_committees backend req
        = RpcOutcome.fail RpcStatusCode.Internal e.description) ∧
    (∀ code msg, get_committees backend req = RpcOutcome.fail code msg →
      code = RpcStatusCode.Internal ∧
      backend (B256.from_slice req.contract_id) = Except.error ⟨msg⟩) := by
  constructor
  · intro e he
    simp [get_committees, get_committees_closure, he]
  · intro code msg h
    unfold get_committees get_committees_closure at h
    cases hb : backend (B256.from_slice req.contract_id) with
    | ok l => rw [hb] at h; simp at h
    | error e =>
      rw [hb] at h
      simp at h
      cases e
      simp_all

/-- Witness for C4 at a concrete failing backend. -/
theorem get_committees_backend_error_internal_witness :
    get_committees (fun _ => Except.error ⟨"registry down"⟩) ⟨[1]⟩
      = RpcOutcome.fail RpcStatusCode.Internal "registry down" :=
  (get_committees_backend_error_internal
    (fun _ => Except.error ⟨"registry down"⟩) ⟨[1]⟩).1 ⟨"registry down"⟩ rfl

/-- Claim C5: for a well-formed but unknown task identifier — the store has
no committee for it — the call succeeds with an empty committee list, not
an error. -/
theorem get_committees_unknown_task_empty (store : B256 → Option Committee)
    (req : CommitteeRequest)
    (h : store (B256.from_slice req.contract_id) = none) :
    get_committees (spec_backend store) req = RpcOutcome.success ⟨[]⟩ := by
  simp [get_committees, get_committees_closure, spec_backend, h,
    convert_members]

/-- Witness for C5: a store that knows no task yields the empty-list
success. -/
theorem get_committees_unknown_task_empty_witness :
    get_committees (spec_backend (fun _ => none)) ⟨[3]⟩
      = RpcOutcome.success ⟨[]⟩ :=
  get_committees_unknown_task_empty (fun _ => none) ⟨[3]⟩ rfl

/-- Counterexample to claim C6 as stated: with no caller cancellation and
the backend stream not completed (`sourceEnded = false`), a single error
item on the backend stream makes the adapter's forwarding future finish,
terminating the delivered stream — so the stream can end for a reason
other than caller cancel or server shutdown. -/
theorem watch_stream_ends_on_backend_error :
    watch_committees ⟨[]⟩ [Except.error ⟨"subscriber fell behind"⟩] false
      = ([], true) := rfl

/-- Claim C6 (amended): the watch stream terminates exactly when the
backend stream completes or yields an error item; on an error-free trace
with the source still open the adapter terminates nothing and delivers
every event. -/
theorem watch_stream_termination (req : WatchRequest)
    (trace : List (Except Error Committee)) (b : Bool) :
    (watch_committees req trace b).2 = (b || trace.any exceptIsErr) ∧
    (trace.any exceptIsErr = false →
      (watch_committees req trace b).1.length = trace.length) :=
  ⟨watch_forward_snd trace b, watch_forward_length trace b⟩

/-- Witness for C6 (amended) at a concrete error-free trace. -/
theorem watch_stream_termination_witness :
    (watch_committees ⟨[]⟩ [Except.ok ⟨⟨[1]⟩, 2, []⟩] false).2
      = (false ||
          ([Except.ok ⟨⟨[1]⟩, 2, []⟩] :
            List (Except Error Committee)).any exceptIsErr) ∧
    (watch_committees ⟨[]⟩ [Except.ok ⟨⟨[1]⟩, 2, []⟩] false).1.length
      = ([Except.ok ⟨⟨[1]⟩, 2, []⟩] :
          List (Except Error Committee)).length :=
  ⟨(watch_stream_termination ⟨[]⟩ [Except.ok ⟨⟨[1]⟩, 2, []⟩] false).1,
   (watch_stream_termination ⟨[]⟩ [Except.ok ⟨⟨[1]⟩, 2, []⟩] false).2 rfl⟩

/-- Claim C7: the Selection Function is deterministic — any two invocations
on identical (seed, node snapshot, task shape) inputs yield the identical
committee. -/
theorem selectCommittee_deterministic (seed : Nat) (nodes : List Node)
    (shape : List RoleReq) (c c' : SelCommittee)
    (h1 : selectCommittee seed nodes shape = c)
    (h2 : selectCommittee seed nodes shape = c') : c = c' :=
  h1.symm.trans h2

/-- Witness for C7: a concrete five-node snapshot with shape [(worker, 3)]
selects a fixed three-member committee, pinned by the determinism
theorem. -/
theorem selectCommittee_deterministic_witness :
    selectCommittee 7
      [⟨1, [1], 10, true⟩, ⟨2, [1], 5, true⟩, ⟨3, [1], 8, true⟩,
       ⟨4, [1], 2, true⟩, ⟨5, [1], 1, false⟩]
      [⟨1, 3⟩]
      = ⟨[(3, 1), (2, 1), (4, 1)], []⟩ :=
  selectCommittee_deterministic 7
    [⟨1, [1], 10, true⟩, ⟨2, [1], 5, true⟩, ⟨3, [1], 8, true⟩,
     ⟨4, [1], 2, true⟩, ⟨5, [1], 1, false⟩]
    [⟨1, 3⟩]
    (selectCommittee 7
      [⟨1, [1], 10, true⟩, ⟨2, [1], 5, true⟩, ⟨3, [1], 8, true⟩,
       ⟨4, [1], 2, true⟩, ⟨5, [1], 1, false⟩]
      [⟨1, 3⟩])
    ⟨[(3, 1), (2, 1), (4, 1)], []⟩ rfl (by decide)

/-- Claim C8: the request-decoding closure returns `Ok` for every possible
request — it is exactly `Ok` of the backend future — so the
`InvalidArgument` branch is unreachable and no outcome of the handler is
an `InvalidArgument` failure. -/
theorem get_committees_closure_always_ok (backend : GetCommitteesBackend)
    (req : CommitteeRequest) :
    get_committees_closure backend req
      = Except.ok (backend (B256.from_slice req.contract_id)) ∧
    (get_committees backend req).isInvalidArgumentFail = false := by
  refine ⟨rfl, ?_⟩
  unfold get_committees get_committees_closure
  cases backend (B256.from_slice req.contract_id) <;> rfl

/-- Claim C9: `watch_committees` never reads its request: any two requests
against the same backend trace produce the identical response stream. -/
theorem watch_committees_request_independent (r1 r2 : WatchRequest)
    (trace : List (Except Error Committee)) (b : Bool) :
    watch_committees r1 trace b = watch_committees r2 trace b := rfl

/-- Claim C10: the spawned watch future resolves to `Ok(())` no matter how
the forwarding resolved — in particular for every backend trace, including
ones carrying errors — so every error on the watch path is silently
discarded. -/
theorem watch_spawn_always_ok (trace : List (Except Error Committee))
    (r : Except Error Unit) :
    watch_spawn_result (forward_result trace) = Except.ok () ∧
    watch_spawn_result r = Except.ok () :=
  ⟨rfl, rfl⟩

end SchedulerBase
